import Mathlib

/-
Verification of the TicketHandoff escalation posting and audit pipeline.

The repository under verification is a Tauri application: a TypeScript
front end (src/src), SQL migrations for the local SQLite store
(src/src-tauri/migrations/001_init.sql and the follow-up migration in
src/unnamed/part_000), and shared TypeScript types (src/unnamed/part_001).
The Rust command handlers behind the invoke bindings of src/src/lib/tauri.ts
(save_escalation, post_escalation, retry_post_escalation, ...) are not part
of the sources; where a claim depends on them, the corresponding definition
is modelled from the specification and marked as such in its doc comment.

Conventions: SQL TEXT columns become String, nullable columns become
Option, INTEGER ids become Nat, timestamps become Nat. All definitions are
executable and all predicates decidable.
-/

/-- Status string draft: default of the escalations.status column
(001_init.sql line 22) and first literal of the status union type
(src/unnamed/part_001 line 26). -/
def statusDraft : String := "draft"

/-- Status string posted (src/unnamed/part_001 line 26). -/
def statusPosted : String := "posted"

/-- Status string post_failed (src/unnamed/part_001 line 26). -/
def statusPostFailed : String := "post_failed"

/-- Audit action label post_attempted (spec section 4.3 closed set). -/
def actionPostAttempted : String := "post_attempted"

/-- Audit action label post_succeeded (spec section 4.3 closed set). -/
def actionPostSucceeded : String := "post_succeeded"

/-- Audit action label post_failed (spec section 4.3 closed set). -/
def actionPostFailed : String := "post_failed"

/-- Audit action label attachment_attempted (spec section 4.3 closed set). -/
def actionAttachmentAttempted : String := "attachment_attempted"

/-- Audit action label attachment_succeeded (spec section 4.3 closed set). -/
def actionAttachmentSucceeded : String := "attachment_succeeded"

/-- Audit action label attachment_failed (spec section 4.3 closed set). -/
def actionAttachmentFailed : String := "attachment_failed"

/-- Audit action label status_changed (spec section 4.3 closed set). -/
def actionStatusChanged : String := "status_changed"

/-- Modelled from the spec: the closed action-label set enumerated in
section 4.3 (the audit-writing Rust code is not under src/). Listed in the
order of the parenthetical in section 4.3. -/
def specActionLabels : List String :=
  [actionPostAttempted, actionPostSucceeded, actionPostFailed,
   actionAttachmentAttempted, actionAttachmentSucceeded,
   actionAttachmentFailed, actionStatusChanged]

/-- One row of the escalations table, restricted to the columns the claims
mention (001_init.sql lines 11-26, src/unnamed/part_001 lines 15-30):
id, ticket_id, problem_summary, status, posted_at, markdown_output. -/
structure Esc where
  id : Nat
  ticketId : String
  problemSummary : String
  status : String
  posted_at : Option Nat
  markdown_output : Option String
deriving DecidableEq

/-- One row of the audit_log table (001_init.sql lines 28-34, rebuilt with
ON DELETE CASCADE in src/unnamed/part_000 lines 11-17): escalation_id
foreign key, action label, nullable details. -/
structure AuditRow where
  escalation_id : Nat
  action : String
  details : Option String
deriving DecidableEq

/-- The persisted store: the escalations table and the audit_log table. -/
structure Db where
  escalations : List Esc
  audit_log : List AuditRow
deriving DecidableEq

/-- DELETE FROM escalations WHERE id = i under the schema of
src/unnamed/part_000 lines 11-17: the audit_log foreign key is declared
ON DELETE CASCADE with PRAGMA foreign_keys = ON, so SQLite deletes the
matching escalations rows and every audit_log row that references a
deleted escalation. -/
def deleteEscalationCascade (i : Nat) (db : Db) : Db :=
  let deleted := db.escalations.filter (fun e => decide (e.id = i))
  { escalations := db.escalations.filter (fun e => !(decide (e.id = i)))
    audit_log := db.audit_log.filter
      (fun r => !(deleted.any (fun e => decide (e.id = r.escalation_id)))) }

/-- C1: for every escalation id, deleting that escalation removes exactly
the audit_log rows whose escalation_id equals that id and leaves every
audit_log row of any other escalation unchanged (in place, in order). -/
theorem C1_cascade_delete_exact (db : Db) (i : Nat)
    (h : ∃ e ∈ db.escalations, e.id = i) :
    (deleteEscalationCascade i db).audit_log =
      db.audit_log.filter (fun r => !(decide (r.escalation_id = i))) := by
  rcases h with ⟨e0, he0, hid⟩
  unfold deleteEscalationCascade
  apply List.filter_congr
  intro r _
  simp only [List.any_filter]
  by_cases hr : r.escalation_id = i
  · simp [hr]
    exact ⟨e0, he0, hid⟩
  · have hany : db.escalations.any
        (fun e => decide (e.id = i) && decide (e.id = r.escalation_id)) = false := by
      rw [List.any_eq_false]
      intro e he
      by_cases h1 : e.id = i <;> by_cases h2 : e.id = r.escalation_id <;>
        simp_all
    simp [hany, hr]

/-- Concrete escalation used in closed witnesses. -/
def exEsc : Esc :=
  { id := 1, ticketId := "SUP-1", problemSummary := "p",
    status := statusDraft, posted_at := none, markdown_output := none }

/-- A second escalation, owner of audit rows that a cascade delete of
escalation 1 must not touch. -/
def exEsc2 : Esc :=
  { id := 2, ticketId := "SUP-2", problemSummary := "q",
    status := statusPostFailed, posted_at := none, markdown_output := none }

/-- Store holding two escalations and audit rows of both. -/
def c1Db : Db :=
  { escalations := [exEsc, exEsc2]
    audit_log :=
      [⟨1, actionPostAttempted, none⟩,
       ⟨1, actionPostFailed, none⟩,
       ⟨2, actionPostAttempted, none⟩] }

/-- Witness for C1: deleting escalation 1 from the concrete store removes
its two audit rows and keeps the row of escalation 2. -/
theorem C1_cascade_delete_exact_witness :
    (deleteEscalationCascade 1 c1Db).audit_log =
      c1Db.audit_log.filter (fun r => !(decide (r.escalation_id = 1))) :=
  C1_cascade_delete_exact c1Db 1 ⟨exEsc, by decide, by decide⟩

/-- Columns of the api_config table created by the initial migration
(001_init.sql lines 36-44), in declaration order. -/
def api_config_v1_columns : List String :=
  ["id", "jira_base_url", "jira_email", "jira_api_token",
   "ollama_endpoint", "ollama_model", "updated_at"]

/-- Columns of the api_config table after the follow-up migration rebuilds
it (src/unnamed/part_000 lines 27-45, CREATE TABLE api_config_new followed
by DROP and RENAME), in declaration order. -/
def api_config_columns : List String :=
  ["id", "jira_email", "ollama_endpoint", "ollama_model", "updated_at"]

/-- C3 counterexample: the claim asserts the persisted api_config record
holds the remote base URL and never the secret token, but the migrated
table has no jira_base_url column at all, and the initial schema it
replaces did persist jira_api_token. -/
theorem C3_counterexample :
    decide ("jira_base_url" ∈ api_config_columns) = false ∧
      "jira_api_token" ∈ api_config_v1_columns := by
  decide

/-- C3 amended: after the follow-up migration the api_config record keeps
only the account email, the model settings and a bookkeeping timestamp;
neither the secret API token nor the remote base URL is persisted in it. -/
theorem C3_amended_no_secret_in_api_config :
    decide ("jira_api_token" ∈ api_config_columns) = false ∧
      decide ("jira_base_url" ∈ api_config_columns) = false ∧
      "jira_email" ∈ api_config_columns ∧
      "ollama_endpoint" ∈ api_config_columns ∧
      "ollama_model" ∈ api_config_columns ∧
      "jira_api_token" ∈ api_config_v1_columns := by
  decide

/-- Summary row returned by list_escalations
(src/unnamed/part_001 lines 32-38). -/
structure EscalationSummary where
  id : Nat
  ticketId : String
  problemSummary : String
  status : String
  createdAt : String
deriving DecidableEq

/-- React state owned by the useEscalations hook
(src/src/hooks/useEscalations.ts lines 11-12): loading flag and the last
error message. -/
structure HookState where
  loading : Bool
  error : Option String
deriving DecidableEq

namespace UseEscalations

/-- saveEscalation of the useEscalations hook
(src/src/hooks/useEscalations.ts lines 14-26). The awaited tauri call is
passed as an Except value: ok carries the new id, error carries the thrown
message. The body sets loading true and clears error, then either returns
the id or catches, records the message and returns the null sentinel; the
finally block clears loading on both paths. -/
def saveEscalation (call : Except String Nat) (st : HookState) :
    HookState × Option Nat :=
  let st := { st with loading := true }
  let st := { st with error := none }
  match call with
  | Except.ok v => ({ st with loading := false }, some v)
  | Except.error msg =>
      let st := { st with error := some msg }
      ({ st with loading := false }, none)

/-- getEscalation of the useEscalations hook
(src/src/hooks/useEscalations.ts lines 28-39): returns the escalation or,
on a caught error, records the message and returns the null sentinel. -/
def getEscalation (call : Except String Esc) (st : HookState) :
    HookState × Option Esc :=
  let st := { st with loading := true }
  let st := { st with error := none }
  match call with
  | Except.ok v => ({ st with loading := false }, some v)
  | Except.error msg =>
      let st := { st with error := some msg }
      ({ st with loading := false }, none)

/-- listEscalations of the useEscalations hook
(src/src/hooks/useEscalations.ts lines 41-52): returns the summaries or,
on a caught error, records the message and returns the empty list. -/
def listEscalations (call : Except String (List EscalationSummary))
    (st : HookState) : HookState × List EscalationSummary :=
  let st := { st with loading := true }
  let st := { st with error := none }
  match call with
  | Except.ok v => ({ st with loading := false }, v)
  | Except.error msg =>
      let st := { st with error := some msg }
      ({ st with loading := false }, [])

/-- deleteEscalation of the useEscalations hook
(src/src/hooks/useEscalations.ts lines 54-66): returns true on success or,
on a caught error, records the message and returns false. -/
def deleteEscalation (call : Except String Unit) (st : HookState) :
    HookState × Bool :=
  let st := { st with loading := true }
  let st := { st with error := none }
  match call with
  | Except.ok _ => ({ st with loading := false }, true)
  | Except.error msg =>
      let st := { st with error := some msg }
      ({ st with loading := false }, false)

end UseEscalations

/-- C9: each operation of the useEscalations hook is total over the
outcome of the underlying call: on failure it stores the thrown message in
the error state and returns its null, empty-list or false sentinel; on
success it clears the error and returns the value; loading is reset on
every path, so no exception ever reaches the caller. -/
theorem C9_hook_catches_every_failure (st : HookState) (msg : String)
    (v : Nat) (e : Esc) (l : List EscalationSummary) :
    UseEscalations.saveEscalation (Except.error msg) st =
        ({ loading := false, error := some msg }, none) ∧
      UseEscalations.getEscalation (Except.error msg) st =
        ({ loading := false, error := some msg }, none) ∧
      UseEscalations.listEscalations (Except.error msg) st =
        ({ loading := false, error := some msg }, []) ∧
      UseEscalations.deleteEscalation (Except.error msg) st =
        ({ loading := false, error := some msg }, false) ∧
      UseEscalations.saveEscalation (Except.ok v) st =
        ({ loading := false, error := none }, some v) ∧
      UseEscalations.getEscalation (Except.ok e) st =
        ({ loading := false, error := none }, some e) ∧
      UseEscalations.listEscalations (Except.ok l) st =
        ({ loading := false, error := none }, l) ∧
      UseEscalations.deleteEscalation (Except.ok ()) st =
        ({ loading := false, error := none }, true) := by
  refine ⟨rfl, rfl, rfl, rfl, rfl, rfl, rfl, rfl⟩

/-- Badge background classes of the recent-escalations list on the Home
page (second document of src/src/pages/NewEscalation.tsx, lines 359-365):
green when status is posted, gray otherwise. -/
def homeBadgeClass (status : String) : String :=
  if status = statusPosted then ("bg-green-100 text-green-800")
  else ("bg-gray-100 text-gray-800")

/-- Badge text of the recent-escalations list on the Home page (second
document of src/src/pages/NewEscalation.tsx, line 366): Draft when status
is draft, Posted for every other status. -/
def homeBadgeLabel (status : String) : String :=
  if status = statusDraft then ("Draft") else ("Posted")

/-- C10 counterexample: a post_failed escalation is labelled Posted on the
Home list, but its badge class is the gray one while a posted escalation
gets the green one, so the two states are not fully indistinguishable in
that view: only the text label coincides. -/
theorem C10_counterexample :
    homeBadgeLabel statusPostFailed = "Posted" ∧
      decide (homeBadgeClass statusPostFailed = homeBadgeClass statusPosted)
        = false := by
  decide

/-- C10 amended: every escalation whose status is not draft, in particular
one in post_failed, is rendered with the text label Posted on the Home
recent-escalations list, so the label alone gives no indication that the
publish failed; only the badge color (gray versus green) differs. -/
theorem C10_amended_nondraft_labelled_posted (s : String)
    (h : s ≠ statusDraft) : homeBadgeLabel s = "Posted" := by
  unfold homeBadgeLabel
  rw [if_neg h]

/-- Witness for C10: the post_failed status is labelled Posted. -/
theorem C10_amended_nondraft_labelled_posted_witness :
    homeBadgeLabel statusPostFailed = "Posted" :=
  C10_amended_nondraft_labelled_posted statusPostFailed (by decide)

/-- Modelled from the spec: a classified Remote Publisher failure
(section 4.2); kind ranges over Auth, NotFound, RateLimited, Network,
ServerError, FileUnreadable. The Jira client Rust code is not under src/. -/
structure RemoteFailure where
  kind : String
  message : String
deriving DecidableEq

/-- Modelled from the spec: the behaviour of the Remote Publisher during
one pipeline run (section 4.2) — the outcome of postComment and of
attachFile per file path. Both operations are send-once per call; the
pipeline decides every call. -/
structure Publisher where
  postComment : Except RemoteFailure String
  attachFile : String → Option RemoteFailure

/-- Comment outcome of a PostResult (spec section 6):
Success(remoteId), Skipped, or Failure(kind, message). -/
inductive CommentOutcome where
  | success (remoteId : String)
  | skipped
  | failure (kind : String) (message : String)
deriving DecidableEq

/-- Per-file outcome of a PostResult (spec section 6):
Success or Failure(kind, message). -/
inductive FileOutcome where
  | success
  | failure (kind : String) (message : String)
deriving DecidableEq

/-- Structured result of a completed pipeline run (spec section 6). -/
structure PostResult where
  commentOutcome : CommentOutcome
  attachments : List (String × FileOutcome)
  finalStatus : String
deriving DecidableEq

/-- Precondition errors of the two exposed entry points
(spec sections 6 and 7a), rejected before any side effect. -/
inductive PostError where
  | NotFound
  | AlreadyPosted
  | AlreadyInProgress
  | NotInFailedState
deriving DecidableEq

/-- One call made against the Remote Publisher, recorded so that theorems
can state which remote operations a run performed. -/
inductive PubCall where
  | comment (ticketRef : String)
  | attach (ticketRef : String) (file : String)
deriving DecidableEq

/-- Output of the attachment loop: audit rows appended, publisher calls
made, and the per-file outcomes, all in input order. -/
structure LoopOut where
  rows : List AuditRow
  calls : List PubCall
  outcomes : List (String × FileOutcome)
deriving DecidableEq

/-- Everything one pipeline run produces: the updated escalation row, the
audit rows appended by the run, the publisher calls made, and the
structured PostResult handed back to the caller. -/
structure RunOutput where
  esc : Esc
  newAudit : List AuditRow
  calls : List PubCall
  result : PostResult
deriving DecidableEq

/-- Separator used when a failure kind and message are written into the
details column of an audit row. -/
def errSep : String := ": "

/-- Modelled from the spec: step 3 of the pipeline (section 4.3). For each
file path in input order, append attachment_attempted with the file name
as details, call attachFile, then append attachment_succeeded or
attachment_failed; a failure does not abort the loop. -/
def attachLoop (pub : Publisher) (e : Esc) : List String → LoopOut
  | [] => { rows := [], calls := [], outcomes := [] }
  | f :: rest =>
    let tail := attachLoop pub e rest
    match pub.attachFile f with
    | none =>
        { rows := ⟨e.id, actionAttachmentAttempted, some f⟩ ::
            ⟨e.id, actionAttachmentSucceeded, some f⟩ :: tail.rows
          calls := PubCall.attach e.ticketId f :: tail.calls
          outcomes := (f, FileOutcome.success) :: tail.outcomes }
    | some err =>
        { rows := ⟨e.id, actionAttachmentAttempted, some f⟩ ::
            ⟨e.id, actionAttachmentFailed,
              some (err.kind ++ errSep ++ err.message)⟩ :: tail.rows
          calls := PubCall.attach e.ticketId f :: tail.calls
          outcomes := (f, FileOutcome.failure err.kind err.message) ::
            tail.outcomes }

/-- True for the success constructor of a per-file outcome. -/
def isSuccess : FileOutcome → Bool
  | FileOutcome.success => true
  | FileOutcome.failure _ _ => false

/-- Modelled from the spec: step 4 of the pipeline (section 4.3). After
all files are attempted the run is classified: every attachment succeeded
(or none were given) sets status posted with the posted timestamp,
otherwise status post_failed with no timestamp; a status_changed row is
appended and the structured result assembled. preRows and preCalls carry
the comment-step audit rows and publisher calls of step 2. -/
def finishRun (e : Esc) (now : Nat) (co : CommentOutcome)
    (preRows : List AuditRow) (preCalls : List PubCall)
    (lo : LoopOut) : RunOutput :=
  if lo.outcomes.all (fun p => isSuccess p.2) then
    { esc := { e with status := statusPosted, posted_at := some now }
      newAudit := preRows ++ lo.rows ++
        [⟨e.id, actionStatusChanged, some statusPosted⟩]
      calls := preCalls ++ lo.calls
      result := { commentOutcome := co, attachments := lo.outcomes,
                  finalStatus := statusPosted } }
  else
    { esc := { e with status := statusPostFailed, posted_at := none }
      newAudit := preRows ++ lo.rows ++
        [⟨e.id, actionStatusChanged, some statusPostFailed⟩]
      calls := preCalls ++ lo.calls
      result := { commentOutcome := co, attachments := lo.outcomes,
                  finalStatus := statusPostFailed } }

/-- Modelled from the spec: one pipeline run over a loaded escalation
(section 4.3 steps 2 to 4). With skipComment false it appends
post_attempted, calls postComment, and on failure appends post_failed,
sets status post_failed and stops with zero attachments attempted; on
success it appends post_succeeded with the remote id and runs the
attachment loop. With skipComment true (retry whose audit already shows
post_succeeded, section 4.4) the comment step is skipped entirely and the
outcome is Skipped. -/
def runPipeline (pub : Publisher) (e : Esc) (now : Nat)
    (skipComment : Bool) (files : List String) : RunOutput :=
  if skipComment then
    finishRun e now CommentOutcome.skipped [] [] (attachLoop pub e files)
  else
    match pub.postComment with
    | Except.ok remoteId =>
        finishRun e now (CommentOutcome.success remoteId)
          [⟨e.id, actionPostAttempted, none⟩,
           ⟨e.id, actionPostSucceeded, some remoteId⟩]
          [PubCall.comment e.ticketId]
          (attachLoop pub e files)
    | Except.error err =>
        { esc := { e with status := statusPostFailed, posted_at := none }
          newAudit := [⟨e.id, actionPostAttempted, none⟩,
            ⟨e.id, actionPostFailed,
              some (err.kind ++ errSep ++ err.message)⟩]
          calls := [PubCall.comment e.ticketId]
          result := { commentOutcome := CommentOutcome.failure err.kind err.message,
                      attachments := [],
                      finalStatus := statusPostFailed } }

/-- Load an escalation by id from the store (spec section 4.1 load). -/
def findEsc (db : Db) (i : Nat) : Option Esc :=
  db.escalations.find? (fun e => decide (e.id = i))

/-- True when the audit history of escalation i already records a
successful comment post (spec section 4.4). -/
def hasPostSucceeded (db : Db) (i : Nat) : Bool :=
  db.audit_log.any
    (fun r => decide (r.escalation_id = i ∧ r.action = actionPostSucceeded))

/-- True when the audit history of escalation i already records a
successful upload of the given file (spec section 4.4; the details column
of attachment rows carries the file name, spec sections 3 and 4.3). -/
def hasAttachmentSucceeded (db : Db) (i : Nat) (f : String) : Bool :=
  db.audit_log.any
    (fun r => decide (r.escalation_id = i ∧
      r.action = actionAttachmentSucceeded ∧ r.details = some f))

/-- Modelled from the spec: the exposed entry point
postEscalation(id, filePaths) (sections 4.3 and 6; the Rust command
post_escalation behind src/src/lib/tauri.ts lines 25-26 is not under
src/). inFlight is true when another run for this id is active, in which
case the call is rejected with AlreadyInProgress before any side effect;
a missing escalation yields NotFound, a posted one AlreadyPosted; a draft
or post_failed escalation runs the full pipeline. -/
def postEscalation (pub : Publisher) (db : Db) (i : Nat)
    (files : List String) (now : Nat) (inFlight : Bool) :
    Except PostError RunOutput :=
  if inFlight then Except.error PostError.AlreadyInProgress
  else
    match findEsc db i with
    | none => Except.error PostError.NotFound
    | some e =>
        if e.status = statusPosted then Except.error PostError.AlreadyPosted
        else Except.ok (runPipeline pub e now false files)

/-- Modelled from the spec: the Retry Entry Point
retryPostEscalation(id, filePaths) (sections 4.4 and 6; the Rust command
retry_post_escalation behind src/src/lib/tauri.ts lines 27-28 is not
under src/). Only a post_failed escalation may be retried; when the audit
history already holds post_succeeded the comment step is skipped and only
files without an attachment_succeeded entry are attempted, otherwise the
full pipeline runs again over all files. -/
def retryPostEscalation (pub : Publisher) (db : Db) (i : Nat)
    (files : List String) (now : Nat) (inFlight : Bool) :
    Except PostError RunOutput :=
  if inFlight then Except.error PostError.AlreadyInProgress
  else
    match findEsc db i with
    | none => Except.error PostError.NotFound
    | some e =>
        if e.status = statusPostFailed then
          if hasPostSucceeded db i then
            Except.ok (runPipeline pub e now true
              (files.filter (fun f => !(hasAttachmentSucceeded db i f))))
          else Except.ok (runPipeline pub e now false files)
        else Except.error PostError.NotInFailedState

/-- Insert of a new escalation by the editing flow: save_escalation is not
under src/, but its input type (src/unnamed/part_001 lines 40-49) carries
no status and no posted timestamp, and the schema defaults
(001_init.sql lines 22-23) make a fresh row draft with NULL posted_at. -/
def insertDraft (db : Db) (i : Nat) (t : String) (p : String) : Db :=
  { db with escalations := db.escalations ++
      [{ id := i, ticketId := t, problemSummary := p,
         status := statusDraft, posted_at := none,
         markdown_output := none }] }

/-- Re-edit of an existing escalation by the editing flow: the input type
(src/unnamed/part_001 lines 40-49) has no status or posted_at field, so an
edit rewrites content fields and leaves status and posted_at untouched
(spec section 5: editing flows must not touch status). -/
def editEscalation (db : Db) (i : Nat) (t : String) (p : String) : Db :=
  { db with escalations := (db.escalations.map (fun e =>
      if e.id = i then { e with ticketId := t, problemSummary := p }
      else e)) }

/-- Commit one pipeline run to the store: the escalation row is replaced
by its updated version and the audit rows of the run are appended. -/
def applyRun (db : Db) (out : RunOutput) : Db :=
  { escalations := (db.escalations.map (fun e =>
      if e.id = out.esc.id then out.esc else e))
    audit_log := db.audit_log ++ out.newAudit }

/-- The persisted states the modelled operations can reach from an empty
store: inserting a draft, re-editing content fields, deleting with
cascade, and committing a completed posting or retry run. -/
inductive Reachable : Db → Prop where
  | init : Reachable { escalations := [], audit_log := [] }
  | save : ∀ (db : Db) (i : Nat) (t p : String), Reachable db →
      Reachable (insertDraft db i t p)
  | edit : ∀ (db : Db) (i : Nat) (t p : String), Reachable db →
      Reachable (editEscalation db i t p)
  | del : ∀ (db : Db) (i : Nat), Reachable db →
      Reachable (deleteEscalationCascade i db)
  | post : ∀ (db : Db) (pub : Publisher) (i : Nat) (files : List String)
      (now : Nat) (out : RunOutput), Reachable db →
      postEscalation pub db i files now false = Except.ok out →
      Reachable (applyRun db out)
  | retry : ∀ (db : Db) (pub : Publisher) (i : Nat) (files : List String)
      (now : Nat) (out : RunOutput), Reachable db →
      retryPostEscalation pub db i files now false = Except.ok out →
      Reachable (applyRun db out)

/-- The attachment loop issues exactly one attachFile call per input file,
in input order. -/
theorem attachLoop_calls (pub : Publisher) (e : Esc) (fs : List String) :
    (attachLoop pub e fs).calls =
      fs.map (fun f => PubCall.attach e.ticketId f) := by
  induction fs with
  | nil => rfl
  | cons f rest ih =>
      cases h : pub.attachFile f <;> simp [attachLoop, h, ih]

/-- The attachment loop reports exactly one outcome per input file, keyed
by the file, in input order. -/
theorem attachLoop_outcomes_fst (pub : Publisher) (e : Esc)
    (fs : List String) :
    (attachLoop pub e fs).outcomes.map Prod.fst = fs := by
  induction fs with
  | nil => rfl
  | cons f rest ih =>
      cases h : pub.attachFile f <;> simp [attachLoop, h, ih]

/-- Every audit row the attachment loop appends carries one of the three
attachment action labels and belongs to the processed escalation. -/
theorem attachLoop_rows_actions (pub : Publisher) (e : Esc)
    (fs : List String) :
    ∀ r ∈ (attachLoop pub e fs).rows,
      r.escalation_id = e.id ∧
        (r.action = actionAttachmentAttempted ∨
         r.action = actionAttachmentSucceeded ∨
         r.action = actionAttachmentFailed) := by
  induction fs with
  | nil => intro r hr; simp [attachLoop] at hr
  | cons f rest ih =>
      intro r hr
      cases h : pub.attachFile f <;> rw [attachLoop] at hr <;>
        simp only [h, List.mem_cons] at hr <;>
        rcases hr with h1 | h1 | h1 <;>
        first
          | (subst h1; simp)
          | exact ih r h1

/-- The status and posted_at coupling every completed run establishes on
the escalation row: posted with a timestamp, or post_failed without one. -/
def EscInv (e : Esc) : Prop :=
  (e.status = statusDraft ∨ e.status = statusPosted ∨
    e.status = statusPostFailed) ∧
  (e.posted_at.isSome = true ↔ e.status = statusPosted)

/-- Classification writes the escalation row in exactly one of two shapes:
posted with the run timestamp, or post_failed with no timestamp. -/
theorem finishRun_esc (e : Esc) (now : Nat) (co : CommentOutcome)
    (preRows : List AuditRow) (preCalls : List PubCall) (lo : LoopOut) :
    (finishRun e now co preRows preCalls lo).esc =
        { e with status := statusPosted, posted_at := some now } ∨
      (finishRun e now co preRows preCalls lo).esc =
        { e with status := statusPostFailed, posted_at := none } := by
  unfold finishRun
  split
  · left; rfl
  · right; rfl

/-- Classification keeps the comment outcome it is given. -/
theorem finishRun_commentOutcome (e : Esc) (now : Nat)
    (co : CommentOutcome) (preRows : List AuditRow)
    (preCalls : List PubCall) (lo : LoopOut) :
    (finishRun e now co preRows preCalls lo).result.commentOutcome = co := by
  unfold finishRun
  split <;> rfl

/-- Classification reports exactly the loop outcomes as attachments. -/
theorem finishRun_attachments (e : Esc) (now : Nat) (co : CommentOutcome)
    (preRows : List AuditRow) (preCalls : List PubCall) (lo : LoopOut) :
    (finishRun e now co preRows preCalls lo).result.attachments =
      lo.outcomes := by
  unfold finishRun
  split <;> rfl

/-- Classification makes no further publisher calls. -/
theorem finishRun_calls (e : Esc) (now : Nat) (co : CommentOutcome)
    (preRows : List AuditRow) (preCalls : List PubCall) (lo : LoopOut) :
    (finishRun e now co preRows preCalls lo).calls =
      preCalls ++ lo.calls := by
  unfold finishRun
  split <;> rfl

/-- The final status is posted or post_failed, and matches the escalation
row status written by the run. -/
theorem finishRun_finalStatus (e : Esc) (now : Nat) (co : CommentOutcome)
    (preRows : List AuditRow) (preCalls : List PubCall) (lo : LoopOut) :
    (finishRun e now co preRows preCalls lo).result.finalStatus =
        statusPosted ∨
      (finishRun e now co preRows preCalls lo).result.finalStatus =
        statusPostFailed := by
  unfold finishRun
  split
  · left; rfl
  · right; rfl

/-- Every audit row written by classification is a pre-row, a loop row, or
the closing status_changed row of this escalation. -/
theorem finishRun_newAudit (e : Esc) (now : Nat) (co : CommentOutcome)
    (preRows : List AuditRow) (preCalls : List PubCall) (lo : LoopOut) :
    ∀ r ∈ (finishRun e now co preRows preCalls lo).newAudit,
      r ∈ preRows ∨ r ∈ lo.rows ∨
        (r.escalation_id = e.id ∧ r.action = actionStatusChanged) := by
  unfold finishRun
  split <;>
    · intro r hr
      simp only [List.append_assoc, List.mem_append, List.mem_singleton]
        at hr
      rcases hr with h1 | h1 | h1
      · exact Or.inl h1
      · exact Or.inr (Or.inl h1)
      · subst h1; exact Or.inr (Or.inr ⟨rfl, rfl⟩)

/-- Every completed run leaves the escalation row in one of the two legal
post-run shapes, so the three-status enumeration and the posted_at
coupling hold for it. -/
theorem runPipeline_escInv (pub : Publisher) (e : Esc) (now : Nat)
    (sk : Bool) (files : List String) :
    EscInv (runPipeline pub e now sk files).esc := by
  unfold runPipeline
  split
  · rcases finishRun_esc e now CommentOutcome.skipped [] []
        (attachLoop pub e files) with h | h <;> rw [h] <;>
      constructor <;> simp [EscInv, statusPosted, statusPostFailed]
  · cases hc : pub.postComment with
    | ok remoteId =>
        rcases finishRun_esc e now (CommentOutcome.success remoteId)
            [⟨e.id, actionPostAttempted, none⟩,
             ⟨e.id, actionPostSucceeded, some remoteId⟩]
            [PubCall.comment e.ticketId]
            (attachLoop pub e files) with h | h <;> rw [h] <;>
          constructor <;> simp [statusPosted, statusPostFailed]
    | error err =>
        constructor <;> simp [statusPosted, statusPostFailed]

/-- Every audit row a completed run appends carries an action label from
the closed seven-label set, and belongs to the processed escalation. -/
theorem runPipeline_newAudit_labels (pub : Publisher) (e : Esc)
    (now : Nat) (sk : Bool) (files : List String) :
    ∀ r ∈ (runPipeline pub e now sk files).newAudit,
      r.action ∈ specActionLabels := by
  unfold runPipeline
  split
  · intro r hr
    rcases finishRun_newAudit e now CommentOutcome.skipped [] []
        (attachLoop pub e files) r hr with h | h | h
    · simp at h
    · rcases attachLoop_rows_actions pub e files r h with ⟨-, h2⟩
      rcases h2 with h2 | h2 | h2 <;> simp [h2, specActionLabels]
    · simp [h.2, specActionLabels]
  · cases hc : pub.postComment with
    | ok remoteId =>
        intro r hr
        rcases finishRun_newAudit e now (CommentOutcome.success remoteId)
            [⟨e.id, actionPostAttempted, none⟩,
             ⟨e.id, actionPostSucceeded, some remoteId⟩]
            [PubCall.comment e.ticketId]
            (attachLoop pub e files) r hr with h | h | h
        · simp only [List.mem_cons, List.not_mem_nil, or_false] at h
          rcases h with h1 | h1 <;> subst h1 <;> simp [specActionLabels]
        · rcases attachLoop_rows_actions pub e files r h with ⟨-, h2⟩
          rcases h2 with h2 | h2 | h2 <;> simp [h2, specActionLabels]
        · simp [h.2, specActionLabels]
    | error err =>
        intro r hr
        simp only [List.mem_cons, List.not_mem_nil, or_false] at hr
        rcases hr with h1 | h1 <;> subst h1 <;> simp [specActionLabels]

/-- Inversion: a postEscalation call that returns a result found the
escalation, saw it in a non-posted status, and ran the full pipeline over
the given files. -/
theorem postEscalation_ok_inv (pub : Publisher) (db : Db) (i : Nat)
    (files : List String) (now : Nat) (fl : Bool) (out : RunOutput)
    (h : postEscalation pub db i files now fl = Except.ok out) :
    ∃ e, findEsc db i = some e ∧ ¬ e.status = statusPosted ∧
      out = runPipeline pub e now false files := by
  unfold postEscalation at h
  split at h
  · simp at h
  · split at h
    · simp at h
    · next e hf =>
        split at h
        · simp at h
        · next hs =>
            refine ⟨e, hf, hs, ?_⟩
            injection h with h2
            exact h2.symm

/-- Inversion: a retryPostEscalation call that returns a result found the
escalation in post_failed and ran the pipeline with some skip flag over
some file list. -/
theorem retryPostEscalation_ok_inv (pub : Publisher) (db : Db) (i : Nat)
    (files : List String) (now : Nat) (fl : Bool) (out : RunOutput)
    (h : retryPostEscalation pub db i files now fl = Except.ok out) :
    ∃ e sk td, findEsc db i = some e ∧ e.status = statusPostFailed ∧
      out = runPipeline pub e now sk td := by
  unfold retryPostEscalation at h
  split at h
  · simp at h
  · split at h
    · simp at h
    · next e hf =>
        split at h
        · next hs =>
            split at h
            · injection h with h2
              exact ⟨e, true, _, hf, hs, h2.symm⟩
            · injection h with h2
              exact ⟨e, false, files, hf, hs, h2.symm⟩
        · simp at h

/-- The conjunction of the persisted-state invariants: every escalation row
satisfies the status enumeration and the posted_at coupling, and every
audit row carries a label from the closed set. -/
def DbInv (db : Db) : Prop :=
  (∀ e ∈ db.escalations, EscInv e) ∧
  (∀ r ∈ db.audit_log, r.action ∈ specActionLabels)

/-- Committing a run whose escalation row and audit rows are legal
preserves the store invariants. -/
theorem applyRun_inv (db : Db) (out : RunOutput) (ih : DbInv db)
    (h1 : EscInv out.esc)
    (h2 : ∀ r ∈ out.newAudit, r.action ∈ specActionLabels) :
    DbInv (applyRun db out) := by
  constructor
  · intro e he
    simp only [applyRun, List.mem_map] at he
    rcases he with ⟨x, hx, rfl⟩
    by_cases hid : x.id = out.esc.id
    · rw [if_pos hid]
      exact h1
    · rw [if_neg hid]
      exact ih.1 x hx
  · intro r hr
    simp only [applyRun, List.mem_append] at hr
    rcases hr with hr | hr
    · exact ih.2 r hr
    · exact h2 r hr

/-- Every reachable store satisfies the invariants: the proof runs over
the five modelled operations. -/
theorem reachable_DbInv (db : Db) (h : Reachable db) : DbInv db := by
  induction h with
  | init => exact ⟨by simp, by simp⟩
  | save db i t p _ ih =>
      constructor
      · intro e he
        simp only [insertDraft, List.mem_append, List.mem_singleton] at he
        rcases he with he | he
        · exact ih.1 e he
        · subst he
          exact ⟨Or.inl rfl, by simp [statusDraft, statusPosted]⟩
      · intro r hr
        exact ih.2 r hr
  | edit db i t p _ ih =>
      constructor
      · intro e he
        simp only [editEscalation, List.mem_map] at he
        rcases he with ⟨x, hx, rfl⟩
        by_cases hid : x.id = i
        · rw [if_pos hid]
          exact ih.1 x hx
        · rw [if_neg hid]
          exact ih.1 x hx
      · intro r hr
        exact ih.2 r hr
  | del db i _ ih =>
      constructor
      · intro e he
        simp only [deleteEscalationCascade, List.mem_filter] at he
        exact ih.1 e he.1
      · intro r hr
        simp only [deleteEscalationCascade, List.mem_filter] at hr
        exact ih.2 r hr.1
  | post db pub i files now out _ hok ih =>
      rcases postEscalation_ok_inv pub db i files now false out hok with
        ⟨e, -, -, rfl⟩
      exact applyRun_inv db _ ih (runPipeline_escInv pub e now false files)
        (runPipeline_newAudit_labels pub e now false files)
  | retry db pub i files now out _ hok ih =>
      rcases retryPostEscalation_ok_inv pub db i files now false out hok with
        ⟨e, sk, td, -, -, rfl⟩
      exact applyRun_inv db _ ih (runPipeline_escInv pub e now sk td)
        (runPipeline_newAudit_labels pub e now sk td)

/-- Decidable check: every escalation row has one of the three status
strings draft, posted, post_failed. -/
def statusOk (db : Db) : Bool :=
  db.escalations.all (fun e => decide (e.status = statusDraft ∨
    e.status = statusPosted ∨ e.status = statusPostFailed))

/-- Decidable check: every escalation row has posted_at set exactly when
its status is posted. -/
def postedAtOk (db : Db) : Bool :=
  db.escalations.all (fun e =>
    decide (e.posted_at.isSome = true ↔ e.status = statusPosted))

/-- Decidable check: every audit row carries an action label from the
closed seven-label set. -/
def auditActionsOk (db : Db) : Bool :=
  db.audit_log.all (fun r => decide (r.action ∈ specActionLabels))

/-- C4: in every reachable store every escalation has posted_at non-null
exactly when its status is posted. -/
theorem C4_posted_at_iff_posted (db : Db) (h : Reachable db) :
    postedAtOk db = true := by
  have hinv := reachable_DbInv db h
  rw [postedAtOk, List.all_eq_true]
  intro e he
  rw [decide_eq_true_iff]
  exact (hinv.1 e he).2

/-- C5: in every reachable store every escalation status is one of the
three strings draft, posted, post_failed; no modelled operation writes any
other value. -/
theorem C5_status_three_strings (db : Db) (h : Reachable db) :
    statusOk db = true := by
  have hinv := reachable_DbInv db h
  rw [statusOk, List.all_eq_true]
  intro e he
  rw [decide_eq_true_iff]
  exact (hinv.1 e he).1

/-- Publisher whose comment call succeeds with remote id rc-1 and whose
attachment calls all succeed; used for concrete reachable stores. -/
def exPubOk : Publisher :=
  { postComment := Except.ok ("rc-1"), attachFile := fun _ => none }

/-- Store holding the single draft escalation exEsc. -/
def exDb0 : Db :=
  insertDraft { escalations := [], audit_log := [] } 1 ("SUP-1") ("p")

/-- The run that posts escalation 1 of exDb0 with no attachments at
time 7. -/
def exRun : RunOutput := runPipeline exPubOk exEsc 7 false []

/-- Store after that run: escalation 1 is posted at time 7 and three audit
rows exist (post_attempted, post_succeeded, status_changed). -/
def exDb : Db := applyRun exDb0 exRun

/-- The concrete store exDb is reachable: insert a draft, then commit a
successful posting run. -/
theorem exDb_reachable : Reachable exDb :=
  Reachable.post exDb0 exPubOk 1 [] 7 exRun
    (Reachable.save { escalations := [], audit_log := [] } 1 ("SUP-1") ("p")
      Reachable.init)
    rfl

/-- Witness for C4: the coupling holds on the concrete reachable store
exDb, whose escalation is posted with timestamp 7. -/
theorem C4_posted_at_iff_posted_witness : postedAtOk exDb = true :=
  C4_posted_at_iff_posted exDb exDb_reachable

/-- Witness for C5: the status enumeration holds on the concrete reachable
store exDb. -/
theorem C5_status_three_strings_witness : statusOk exDb = true :=
  C5_status_three_strings exDb exDb_reachable

/-- C6 counterexample: the claim speaks of exactly six enumerated action
labels, but the closed set the spec enumerates holds seven pairwise
distinct strings, and the seventh, status_changed, is in fact written to
the audit log of the concrete reachable store exDb, so no six-string
reading of the label set covers the reachable audit rows. -/
theorem C6_counterexample :
    specActionLabels.length = 7 ∧ specActionLabels.Nodup ∧
      Reachable exDb ∧
      exDb.audit_log.any
        (fun r => decide (r.action = actionStatusChanged)) = true :=
  ⟨by decide, by decide, exDb_reachable, by decide⟩

/-- C6 amended: in every reachable store every audit row action is one of
exactly the seven strings post_attempted, post_succeeded, post_failed,
attachment_attempted, attachment_succeeded, attachment_failed,
status_changed, and no modelled operation writes a label outside that
set. -/
theorem C6_amended_actions_in_seven_labels (db : Db) (h : Reachable db) :
    auditActionsOk db = true := by
  have hinv := reachable_DbInv db h
  rw [auditActionsOk, List.all_eq_true]
  intro r hr
  rw [decide_eq_true_iff]
  exact hinv.2 r hr

/-- Witness for the amended C6: the label check holds on the concrete
reachable store exDb with its three audit rows. -/
theorem C6_amended_actions_in_seven_labels_witness :
    auditActionsOk exDb = true :=
  C6_amended_actions_in_seven_labels exDb exDb_reachable

/-- Shape of a postEscalation outcome: an error is one of NotFound,
AlreadyPosted, AlreadyInProgress; a completed run carries a final status
of posted or post_failed and, unless the comment failed, one outcome per
input file in order; after a comment failure the attachment list is empty
because no attachment is attempted (spec section 4.3 step 2). -/
def wellFormedPost (files : List String) :
    Except PostError RunOutput → Prop
  | Except.error e => e = PostError.NotFound ∨ e = PostError.AlreadyPosted ∨
      e = PostError.AlreadyInProgress
  | Except.ok out =>
      (out.result.finalStatus = statusPosted ∨
        out.result.finalStatus = statusPostFailed) ∧
      (match out.result.commentOutcome with
       | CommentOutcome.failure _ _ => out.result.attachments = []
       | _ => out.result.attachments.map Prod.fst = files)

/-- A full pipeline run satisfies the completed-run shape. -/
theorem runPipeline_full_wf (pub : Publisher) (e : Esc) (now : Nat)
    (files : List String) :
    ((runPipeline pub e now false files).result.finalStatus = statusPosted ∨
      (runPipeline pub e now false files).result.finalStatus =
        statusPostFailed) ∧
    (match (runPipeline pub e now false files).result.commentOutcome with
     | CommentOutcome.failure _ _ =>
         (runPipeline pub e now false files).result.attachments = []
     | _ =>
         (runPipeline pub e now false files).result.attachments.map
           Prod.fst = files) := by
  cases hc : pub.postComment with
  | ok rid =>
      have h0 : runPipeline pub e now false files =
          finishRun e now (CommentOutcome.success rid)
            [⟨e.id, actionPostAttempted, none⟩,
             ⟨e.id, actionPostSucceeded, some rid⟩]
            [PubCall.comment e.ticketId] (attachLoop pub e files) := by
        unfold runPipeline
        rw [hc]
        rfl
      rw [h0]
      refine ⟨finishRun_finalStatus e now (CommentOutcome.success rid) _ _ _,
        ?_⟩
      rw [finishRun_commentOutcome, finishRun_attachments]
      exact attachLoop_outcomes_fst pub e files
  | error err =>
      have h0 : runPipeline pub e now false files =
          { esc := { e with status := statusPostFailed, posted_at := none }
            newAudit := [⟨e.id, actionPostAttempted, none⟩,
              ⟨e.id, actionPostFailed,
                some (err.kind ++ errSep ++ err.message)⟩]
            calls := [PubCall.comment e.ticketId]
            result := { commentOutcome :=
                          CommentOutcome.failure err.kind err.message,
                        attachments := [],
                        finalStatus := statusPostFailed } } := by
        unfold runPipeline
        rw [hc]
        rfl
      rw [h0]
      exact ⟨Or.inr rfl, rfl⟩

/-- C2 amended: postEscalation either fails with one of the three
precondition errors NotFound, AlreadyPosted, AlreadyInProgress, or
completes with a PostResult whose final status is posted or post_failed
and whose attachment list pairs every input file with an outcome in order
when the comment did not fail, and is empty when the comment failed,
since attachments are then never attempted. -/
theorem C2_amended_postEscalation_shape (pub : Publisher) (db : Db)
    (i : Nat) (files : List String) (now : Nat) (fl : Bool) :
    wellFormedPost files (postEscalation pub db i files now fl) := by
  unfold postEscalation
  split
  · exact Or.inr (Or.inr rfl)
  · split
    · exact Or.inl rfl
    · next e _ =>
        split
        · exact Or.inr (Or.inl rfl)
        · exact runPipeline_full_wf pub e now files

/-- Remote failure used by the comment-failure scenarios. -/
def c2Err : RemoteFailure := { kind := "Network", message := "timeout" }

/-- Publisher whose comment call fails with a Network error. -/
def c2Pub : Publisher :=
  { postComment := Except.error c2Err, attachFile := fun _ => none }

/-- Store holding the single draft escalation exEsc with no audit rows. -/
def c2Db : Db := { escalations := [exEsc], audit_log := [] }

/-- C2 counterexample: a completed postEscalation call over one input file
whose comment fails returns a result with an empty attachment list, not
one per-file outcome for each input file. -/
theorem C2_counterexample :
    (postEscalation c2Pub c2Db 1 ["a.png"] 5 false).map
        (fun out => out.result.attachments) = Except.ok [] ∧
      (postEscalation c2Pub c2Db 1 ["a.png"] 5 false).map
        (fun out => out.result.finalStatus) =
        Except.ok statusPostFailed := by
  constructor
  · rfl
  · rfl

/-- C7: when the comment call fails, a posting run over a draft escalation
stops before any attachment: the only publisher call is the comment call,
the appended audit rows are exactly one post_attempted and one
post_failed, no attachment row exists, the escalation ends post_failed
and the result reports zero attachments. -/
theorem C7_comment_failure_stops_pipeline (pub : Publisher) (db : Db)
    (i : Nat) (files : List String) (now : Nat) (e : Esc)
    (err : RemoteFailure) (hfind : findEsc db i = some e)
    (hstatus : e.status = statusDraft)
    (hcomment : pub.postComment = Except.error err) :
    postEscalation pub db i files now false =
      Except.ok
        { esc := { e with status := statusPostFailed, posted_at := none }
          newAudit := [⟨e.id, actionPostAttempted, none⟩,
            ⟨e.id, actionPostFailed,
              some (err.kind ++ errSep ++ err.message)⟩]
          calls := [PubCall.comment e.ticketId]
          result := { commentOutcome :=
                        CommentOutcome.failure err.kind err.message,
                      attachments := [],
                      finalStatus := statusPostFailed } } := by
  have hne : ¬ e.status = statusPosted := by
    rw [hstatus]
    decide
  unfold postEscalation
  rw [hfind]
  show (if e.status = statusPosted then Except.error PostError.AlreadyPosted
    else Except.ok (runPipeline pub e now false files)) = _
  rw [if_neg hne]
  unfold runPipeline
  rw [hcomment]
  rfl

/-- Witness for C7: on the concrete store c2Db, posting draft escalation 1
with one file through the failing publisher c2Pub yields exactly the
post_attempted and post_failed rows, one comment call, no attachment, and
a post_failed result. -/
theorem C7_comment_failure_stops_pipeline_witness :
    postEscalation c2Pub c2Db 1 ["a.png"] 5 false =
      Except.ok
        { esc := { exEsc with status := statusPostFailed, posted_at := none }
          newAudit := [⟨exEsc.id, actionPostAttempted, none⟩,
            ⟨exEsc.id, actionPostFailed,
              some (c2Err.kind ++ errSep ++ c2Err.message)⟩]
          calls := [PubCall.comment exEsc.ticketId]
          result := { commentOutcome :=
                        CommentOutcome.failure c2Err.kind c2Err.message,
                      attachments := [],
                      finalStatus := statusPostFailed } } :=
  C7_comment_failure_stops_pipeline c2Pub c2Db 1 ["a.png"] 5 exEsc c2Err
    rfl rfl rfl

/-- A skip-mode run never appends a post_attempted row: its audit rows are
attachment rows and the closing status_changed row only. -/
theorem runPipeline_skip_no_post_attempted (pub : Publisher) (e : Esc)
    (now : Nat) (fs : List String) :
    (runPipeline pub e now true fs).newAudit.all
      (fun r => !(decide (r.action = actionPostAttempted))) = true := by
  rw [List.all_eq_true]
  intro r hr
  have hmem : r ∈ (finishRun e now CommentOutcome.skipped [] []
      (attachLoop pub e fs)).newAudit := hr
  rcases finishRun_newAudit e now CommentOutcome.skipped [] []
      (attachLoop pub e fs) r hmem with h | h | h
  · simp at h
  · rcases attachLoop_rows_actions pub e fs r h with ⟨-, h2⟩
    rcases h2 with h2 | h2 | h2 <;>
      simp [h2, actionAttachmentAttempted, actionAttachmentSucceeded,
        actionAttachmentFailed, actionPostAttempted]
  · simp [h.2, actionStatusChanged, actionPostAttempted]

/-- A skip-mode run makes exactly one attachFile call per given file and
no comment call. -/
theorem runPipeline_skip_calls (pub : Publisher) (e : Esc) (now : Nat)
    (fs : List String) :
    (runPipeline pub e now true fs).calls =
      fs.map (fun f => PubCall.attach e.ticketId f) := by
  have h0 : runPipeline pub e now true fs =
      finishRun e now CommentOutcome.skipped [] [] (attachLoop pub e fs) :=
    rfl
  rw [h0, finishRun_calls, attachLoop_calls]
  rfl

/-- A skip-mode run reports the comment as Skipped. -/
theorem runPipeline_skip_commentOutcome (pub : Publisher) (e : Esc)
    (now : Nat) (fs : List String) :
    (runPipeline pub e now true fs).result.commentOutcome =
      CommentOutcome.skipped := by
  have h0 : runPipeline pub e now true fs =
      finishRun e now CommentOutcome.skipped [] [] (attachLoop pub e fs) :=
    rfl
  rw [h0, finishRun_commentOutcome]

/-- C8: retrying a post_failed escalation whose audit history already
holds post_succeeded routes the run into skip mode over exactly the files
without an attachment_succeeded entry; that run appends no post_attempted
row, makes no comment call (only one attachFile call per retried file, in
order), and reports the comment as Skipped. -/
theorem C8_retry_skips_confirmed_steps (pub : Publisher) (db : Db)
    (i : Nat) (files : List String) (now : Nat) (e : Esc)
    (hfind : findEsc db i = some e)
    (hstatus : e.status = statusPostFailed)
    (hprev : hasPostSucceeded db i = true) :
    retryPostEscalation pub db i files now false =
        Except.ok (runPipeline pub e now true
          (files.filter (fun f => !(hasAttachmentSucceeded db i f)))) ∧
      (runPipeline pub e now true
          (files.filter (fun f => !(hasAttachmentSucceeded db i f)))).newAudit.all
        (fun r => !(decide (r.action = actionPostAttempted))) = true ∧
      (runPipeline pub e now true
          (files.filter (fun f => !(hasAttachmentSucceeded db i f)))).calls =
        (files.filter (fun f => !(hasAttachmentSucceeded db i f))).map
          (fun f => PubCall.attach e.ticketId f) ∧
      (runPipeline pub e now true
          (files.filter
            (fun f => !(hasAttachmentSucceeded db i f)))).result.commentOutcome =
        CommentOutcome.skipped := by
  refine ⟨?_, runPipeline_skip_no_post_attempted pub e now _,
    runPipeline_skip_calls pub e now _,
    runPipeline_skip_commentOutcome pub e now _⟩
  unfold retryPostEscalation
  rw [hfind]
  show (if e.status = statusPostFailed then _ else
    Except.error PostError.NotInFailedState) = _
  rw [if_pos hstatus]
  rw [hprev]
  rfl

/-- Escalation 1 in post_failed after an attachment-only failure. -/
def c8Esc : Esc :=
  { id := 1, ticketId := "SUP-1", problemSummary := "p",
    status := statusPostFailed, posted_at := none,
    markdown_output := none }

/-- Store after a partial-failure run: the comment succeeded, file a.png
was attached, file b.log failed, and the escalation is post_failed. -/
def c8Db : Db :=
  { escalations := [c8Esc]
    audit_log :=
      [⟨1, actionPostAttempted, none⟩,
       ⟨1, actionPostSucceeded, some ("rc-1")⟩,
       ⟨1, actionAttachmentAttempted, some ("a.png")⟩,
       ⟨1, actionAttachmentSucceeded, some ("a.png")⟩,
       ⟨1, actionAttachmentAttempted, some ("b.log")⟩,
       ⟨1, actionAttachmentFailed, some ("Network: down")⟩,
       ⟨1, actionStatusChanged, some statusPostFailed⟩] }

/-- Witness for C8: retrying escalation 1 of c8Db with both files skips
the comment and retries only b.log, the file without an
attachment_succeeded entry. -/
theorem C8_retry_skips_confirmed_steps_witness :
    retryPostEscalation exPubOk c8Db 1 ["a.png", "b.log"] 9 false =
        Except.ok (runPipeline exPubOk c8Esc 9 true
          ((["a.png", "b.log"]).filter
            (fun f => !(hasAttachmentSucceeded c8Db 1 f)))) ∧
      (runPipeline exPubOk c8Esc 9 true
          ((["a.png", "b.log"]).filter
            (fun f => !(hasAttachmentSucceeded c8Db 1 f)))).newAudit.all
        (fun r => !(decide (r.action = actionPostAttempted))) = true ∧
      (runPipeline exPubOk c8Esc 9 true
          ((["a.png", "b.log"]).filter
            (fun f => !(hasAttachmentSucceeded c8Db 1 f)))).calls =
        ((["a.png", "b.log"]).filter
            (fun f => !(hasAttachmentSucceeded c8Db 1 f))).map
          (fun f => PubCall.attach c8Esc.ticketId f) ∧
      (runPipeline exPubOk c8Esc 9 true
          ((["a.png", "b.log"]).filter
            (fun f =>
              !(hasAttachmentSucceeded c8Db 1 f)))).result.commentOutcome =
        CommentOutcome.skipped :=
  C8_retry_skips_confirmed_steps exPubOk c8Db 1 ["a.png", "b.log"] 9 c8Esc
    rfl rfl rfl
